import Mathlib

/-!
# Verification of the uhmm-achtually orchestration and resilience core

Shallow embedding, in Lean 4, of the core components of the
`uhmm-achtually` backend:

* `SentenceAggregator` (`src/backend/src/core/nlp/sentence_aggregator.py`)
* `TranscriptionDeduplicator` / `ClaimDeduplicator`
  (`src/backend/src/utils/deduplication.py`)
* `CircuitBreaker` (`src/backend/src/utils/circuit_breaker.py`)
* `ConnectionManager` (`src/backend/src/api/websocket/connection_manager.py`)
* `FactCheckingOrchestrator` (`src/backend/src/core/fact_checking/orchestrator.py`)

Modelling conventions:

* Python strings are `List Char` (`Str`); whitespace and character classes
  are the ASCII fragment actually exercised by the code.
* Wall-clock time (`time.time()`) is an explicit `Int` parameter threaded
  through each call; within one call the clock is constant.
* The md5 key of the two deduplicators is abstracted by the normalized text
  itself (md5 is a function, so equal normalized texts give equal keys; key
  *equality* facts transfer directly).
* `await`-ing an external collaborator is a pure oracle function; a typed
  exception is an `Except` error value.  Broadcasting is recorded as a list
  of emitted events (timestamps elided).
-/

namespace UA

abbrev Str := List Char

/-- ASCII whitespace, the fragment of Python's `str.isspace` / `\s`
exercised by the code. -/
def isWsChar (c : Char) : Bool :=
  c = ' ' || c = '\t' || c = '\n' || c = '\r' || c = '\x0b' || c = '\x0c'

/-- Python `str.lstrip()`. -/
def lstripWs (s : Str) : Str := s.dropWhile isWsChar

/-- Python `str.rstrip()`. -/
def rstripWs (s : Str) : Str := (s.reverse.dropWhile isWsChar).reverse

/-- Python `str.strip()`. -/
def stripWs (s : Str) : Str := rstripWs (lstripWs s)

/-- Python `str.rstrip('.')`. -/
def rstripDots (s : Str) : Str :=
  (s.reverse.dropWhile (fun c => c = '.')).reverse

/-- Sentence-terminating punctuation of the aggregator: `.`, `!`, `?`. -/
def isTermChar (c : Char) : Bool := c = '.' || c = '!' || c = '?'

/-- The non-whitespace projection of a string (used to state
"no non-whitespace character is dropped"). -/
def nonWs (s : Str) : Str := s.filter (fun c => !isWsChar c)

/-- Concatenation of a list of strings (no separator). -/
def concatAll (ls : List Str) : Str := ls.foldr (fun a b => a ++ b) []

/-- Is the first character of the (reversed) accumulator a terminator?
This is the `(?<=[.!?])` lookbehind of the split pattern. -/
def headIsTerm : Str → Bool
  | [] => false
  | c :: _ => isTermChar c

/-- The scanner of `re.split(r'(?<=[.!?])\s+', buffer)`
(`SentenceAggregator._extract_sentences`, line 65).  `acc` holds the
current part reversed; `skipping` is true while consuming the maximal
whitespace run of a separator match. -/
def splitGo : Str → Bool → Str → List Str
  | [], _, acc => [acc.reverse]
  | c :: rest, true, acc =>
      if isWsChar c then splitGo rest true acc
      else splitGo rest false (c :: acc)
  | c :: rest, false, acc =>
      if isWsChar c && headIsTerm acc then
        acc.reverse :: splitGo rest true []
      else splitGo rest false (c :: acc)

/-- `re.split(r'(?<=[.!?])\s+', s)`: split on maximal whitespace runs
immediately preceded by `.`, `!` or `?`. -/
def splitParts (s : Str) : List Str := splitGo s false []

/-- Python `re.match(r'^\d+$', s)` as a Bool: one or more digits spanning
the string (`$` also matches just before one final newline). -/
def pyFullMatchDigits (s : Str) : Bool :=
  match s.reverse with
  | [] => false
  | c :: rest =>
      if c = '\n' then !rest.isEmpty && rest.all (fun d => d.isDigit)
      else (c :: rest).all (fun d => d.isDigit)

/-- The per-part filter of `_extract_sentences` (line 75):
`if part and not re.match(r'^\d+$', part.rstrip('.'))`. -/
def keepSentencePart (p : Str) : Bool :=
  !p.isEmpty && !pyFullMatchDigits (rstripDots p)

/-- `SentenceAggregator._extract_sentences` (lines 50–81): split the
buffer, emit all but the last part (dropping parts that are digits plus
trailing periods), keep the last part buffered. -/
def SentenceAggregator.extract_sentences (buffer : Str) : List Str × Str :=
  let parts := splitParts buffer
  if parts.length == 1 then ([], buffer)
  else (parts.dropLast.filter keepSentencePart, (parts.getLast?).getD [])

/-- The buffer after `add_text` appends `text` (lines 38–40): a single
space separator if the buffer is non-empty and does not already end in a
space, then the stripped fragment. -/
def SentenceAggregator.combine (buffer text : Str) : Str :=
  (if !buffer.isEmpty && !(buffer.getLast? == some ' ') then buffer ++ [' ']
   else buffer) ++ stripWs text

/-- `SentenceAggregator.add_text` (lines 24–48): returns the complete
sentences found and the new buffer. -/
def SentenceAggregator.add_text (buffer text : Str) : List Str × Str :=
  if text.isEmpty then ([], buffer)
  else SentenceAggregator.extract_sentences (SentenceAggregator.combine buffer text)

/-- `SentenceAggregator.force_flush` (lines 96–113). -/
def SentenceAggregator.force_flush (buffer : Str) : List Str × Str :=
  if buffer.isEmpty then ([], buffer)
  else
    let sentence := stripWs buffer
    if sentence.isEmpty then ([], []) else ([sentence], [])

/-- Feed a sequence of fragments through `add_text`, collecting all
returned sentences and the final buffer. -/
def SentenceAggregator.runAdd : Str → List Str → List Str × Str
  | buffer, [] => ([], buffer)
  | buffer, t :: ts =>
      let r := SentenceAggregator.add_text buffer t
      let r2 := SentenceAggregator.runAdd r.2 ts
      (r.1 ++ r2.1, r2.2)

/-- A step of `add_text` is *clean* when no split part (other than the
trailing remainder) is dropped by the digits filter of
`_extract_sentences`. -/
def SentenceAggregator.cleanStep (buffer text : Str) : Bool :=
  text.isEmpty ||
    (let parts := splitParts (SentenceAggregator.combine buffer text)
     parts.length == 1 || parts.dropLast.all keepSentencePart)

/-- A whole fragment sequence is clean when every step is. -/
def SentenceAggregator.cleanRun : Str → List Str → Bool
  | _, [] => true
  | buffer, t :: ts =>
      SentenceAggregator.cleanStep buffer t &&
        SentenceAggregator.cleanRun (SentenceAggregator.add_text buffer t).2 ts

/-! ## TTL deduplicator / result cache (`src/backend/src/utils/deduplication.py`) -/

/-- `TranscriptionDeduplicator._hash_text` normalization (lines 24–30):
lowercase, strip, then delete every `.`, `,`, `!`, `?`.  The final md5 is
abstracted by the normalized text itself (equal normalized texts give
equal md5 keys). -/
def TranscriptionDeduplicator.hash_text (text : Str) : Str :=
  (stripWs (text.map Char.toLower)).filter
    (fun c => !(c = '.' || c = ',' || c = '!' || c = '?'))

/-- Association-list lookup for the dedup caches. -/
def lookupKey {α : Type} (k : Str) : List (Str × α) → Option α
  | [] => none
  | e :: rest => if e.1 = k then some e.2 else lookupKey k rest

/-- Association-list update (Python `dict` assignment). -/
def setKey {α : Type} (k : Str) (v : α) : List (Str × α) → List (Str × α)
  | [] => [(k, v)]
  | e :: rest => if e.1 = k then (k, v) :: rest else e :: setKey k v rest

/-- State of `TranscriptionDeduplicator`: TTL, `hash → timestamp` cache,
and the time of the last sweep.  `_cleanup_interval` is the constant 60. -/
structure TranscriptionDeduplicator where
  ttl : Int
  cache : List (Str × Int)
  lastCleanup : Int
deriving DecidableEq, Repr

/-- `TranscriptionDeduplicator._cleanup_cache` (lines 32–49): at most once
per 60-second interval, drop entries older than the TTL. -/
def TranscriptionDeduplicator.cleanup_cache (now : Int)
    (d : TranscriptionDeduplicator) : TranscriptionDeduplicator :=
  if now - d.lastCleanup < 60 then d
  else { d with cache := d.cache.filter (fun e => !(now - e.2 > d.ttl)),
                lastCleanup := now }

/-- `TranscriptionDeduplicator.is_duplicate` (lines 51–77): lazily sweep,
then report (and slide) a live entry, else insert a fresh one. -/
def TranscriptionDeduplicator.is_duplicate (now : Int) (text : Str)
    (d : TranscriptionDeduplicator) : Bool × TranscriptionDeduplicator :=
  let d1 := TranscriptionDeduplicator.cleanup_cache now d
  let h := TranscriptionDeduplicator.hash_text text
  match lookupKey h d1.cache with
  | some ts =>
      if now - ts < d1.ttl then
        (true, { d1 with cache := setKey h now d1.cache })
      else (false, { d1 with cache := setKey h now d1.cache })
  | none => (false, { d1 with cache := setKey h now d1.cache })

/-- Python `str.split()` with no argument: maximal non-whitespace runs.
`acc` holds the current word reversed. -/
def wordsGo : Str → Str → List Str
  | acc, [] => if acc.isEmpty then [] else [acc.reverse]
  | acc, c :: rest =>
      if isWsChar c then
        if acc.isEmpty then wordsGo [] rest
        else acc.reverse :: wordsGo [] rest
      else wordsGo (c :: acc) rest

/-- Python `s.split()`. -/
def pySplitWs (s : Str) : List Str := wordsGo [] s

/-- Python `' '.join(ws)`. -/
def joinWords : List Str → Str
  | [] => []
  | [w] => w
  | w :: ws => w ++ ' ' :: joinWords ws

/-- The character filter of `_hash_claim`:
`c.isalnum() or c.isspace()`. -/
def claimKeepChar (c : Char) : Bool := c.isAlphanum || isWsChar c

/-- `ClaimDeduplicator._hash_claim` normalization (lines 100–106):
lowercase, strip, keep only alphanumerics and whitespace, collapse
whitespace (`' '.join(s.split())`).  md5 abstracted as above. -/
def ClaimDeduplicator.hash_claim (text : Str) : Str :=
  joinWords (pySplitWs
    ((stripWs (text.map Char.toLower)).filter claimKeepChar))

/-- The word sequence a text is reduced to by the `_hash_claim`
normalization before joining: lowercase, drop non-alphanumeric
non-whitespace characters, split on whitespace runs.  Two texts that
differ only in letter case, leading/trailing whitespace, punctuation, or
internal whitespace runs have the same `claimWords`. -/
def claimWords (text : Str) : List Str :=
  pySplitWs ((text.map Char.toLower).filter claimKeepChar)

/-- `status` of a `FactCheckVerdict`
(`src/backend/src/models/verdict_models.py`, a 4-value `Literal`). -/
inductive VerdictStatus
  | supported
  | contradicted
  | unclear
  | notFound
deriving DecidableEq, Repr

/-- `FactCheckVerdict` (confidence as a rational in place of the float). -/
structure Verdict where
  claim : Str
  status : VerdictStatus
  confidence : ℚ
  rationale : Str
  evidenceUrl : Option Str
deriving DecidableEq, Repr

/-- State of `ClaimDeduplicator`: TTL, `hash → (timestamp, verdict)`
cache, last sweep time. -/
structure ClaimDeduplicator where
  ttl : Int
  cache : List (Str × (Int × Verdict))
  lastCleanup : Int
deriving DecidableEq, Repr

/-- `ClaimDeduplicator._cleanup_cache` (lines 108–125). -/
def ClaimDeduplicator.cleanup_cache (now : Int)
    (d : ClaimDeduplicator) : ClaimDeduplicator :=
  if now - d.lastCleanup < 60 then d
  else { d with cache := d.cache.filter (fun e => !(now - e.2.1 > d.ttl)),
                lastCleanup := now }

/-- `ClaimDeduplicator.get_cached_result` (lines 127–149): lazily sweep,
then return a live cached verdict if any. -/
def ClaimDeduplicator.get_cached_result (now : Int) (text : Str)
    (d : ClaimDeduplicator) : Option Verdict × ClaimDeduplicator :=
  let d1 := ClaimDeduplicator.cleanup_cache now d
  match lookupKey (ClaimDeduplicator.hash_claim text) d1.cache with
  | some e => if now - e.1 < d1.ttl then (some e.2, d1) else (none, d1)
  | none => (none, d1)

/-- `ClaimDeduplicator.cache_result` (lines 151–161). -/
def ClaimDeduplicator.cache_result (now : Int) (text : Str) (v : Verdict)
    (d : ClaimDeduplicator) : ClaimDeduplicator :=
  { d with cache := setKey (ClaimDeduplicator.hash_claim text) (now, v) d.cache }

/-! ## Circuit breaker (`src/backend/src/utils/circuit_breaker.py`) -/

/-- `CircuitState` (lines 13–17). -/
inductive CircuitState
  | closed
  | opened
  | halfOpen
deriving DecidableEq, Repr

/-- `CircuitBreaker` mutable state plus its constructor parameters
(lines 27–51). -/
structure CircuitBreaker where
  name : Str
  failureThreshold : Nat
  recoveryTimeout : Int
  state : CircuitState
  failureCount : Nat
  lastFailureTime : Option Int
  successCount : Nat
deriving DecidableEq, Repr

/-- `CircuitBreaker.__init__`: fresh breaker in the Closed state. -/
def CircuitBreaker.init (name : Str) (failureThreshold : Nat)
    (recoveryTimeout : Int) : CircuitBreaker :=
  { name, failureThreshold, recoveryTimeout,
    state := .closed, failureCount := 0, lastFailureTime := none,
    successCount := 0 }

/-- `CircuitBreaker._should_attempt_reset` (lines 53–58). -/
def CircuitBreaker.should_attempt_reset (cb : CircuitBreaker)
    (now : Int) : Bool :=
  match cb.lastFailureTime with
  | none => true
  | some t => now - t ≥ cb.recoveryTimeout

/-- `CircuitBreaker._record_success` (lines 60–68): only meaningful in
HalfOpen; two successes close the breaker and reset both counters. -/
def CircuitBreaker.record_success (cb : CircuitBreaker) : CircuitBreaker :=
  if cb.state = .halfOpen then
    let cb2 := { cb with successCount := cb.successCount + 1 }
    if cb2.successCount ≥ 2 then
      { cb2 with state := .closed, failureCount := 0, successCount := 0 }
    else cb2
  else cb

/-- `CircuitBreaker._record_failure` (lines 70–84). -/
def CircuitBreaker.record_failure (cb : CircuitBreaker)
    (now : Int) : CircuitBreaker :=
  let cb2 := { cb with failureCount := cb.failureCount + 1,
                       lastFailureTime := some now }
  if cb2.state = .halfOpen then { cb2 with state := .opened }
  else if cb2.failureCount ≥ cb2.failureThreshold then
    { cb2 with state := .opened }
  else cb2

/-- `CircuitBreaker._check_state` (lines 86–91). -/
def CircuitBreaker.check_state (cb : CircuitBreaker)
    (now : Int) : CircuitBreaker :=
  if cb.state = .opened && cb.should_attempt_reset now then
    { cb with state := .halfOpen, successCount := 0 }
  else cb

/-- Behaviour of the wrapped collaborator on this call. -/
inductive CallOutcome
  | success
  | failure
deriving DecidableEq, Repr

/-- Result of `CircuitBreaker.call`: either fast-failed with
`ExternalServiceError` (`rejected` — the collaborator is NOT invoked), or
the collaborator was invoked with the given outcome (a failure is
re-raised to the caller). -/
inductive CallResult
  | rejected
  | invoked (outcome : CallOutcome)
deriving DecidableEq, Repr

/-- `CircuitBreaker.call` (lines 93–127). -/
def CircuitBreaker.call (cb : CircuitBreaker) (now : Int)
    (outcome : CallOutcome) : CallResult × CircuitBreaker :=
  let cb1 := cb.check_state now
  if cb1.state = .opened then (.rejected, cb1)
  else
    match outcome with
    | .success => (.invoked .success, cb1.record_success)
    | .failure => (.invoked .failure, cb1.record_failure now)

/-! ## Connection manager (`src/backend/src/api/websocket/connection_manager.py`) -/

/-- Opaque client connection identity. -/
abbrev Conn := Nat

/-- Behaviour of `websocket.send_json` for one connection: it either
succeeds or throws. -/
inductive SendOutcome
  | ok
  | throwEx
deriving DecidableEq, Repr

/-- `ConnectionManager._send_safe` (lines 149–165): any throw from the
transport is caught and converted to `false`. -/
def ConnectionManager.send_safe (send : Conn → SendOutcome)
    (c : Conn) : Bool :=
  match send c with
  | .ok => true
  | .throwEx => false

/-- `ConnectionManager` state: the set of active connections, modelled as
a duplicate-free list. -/
structure ConnectionManager where
  activeConnections : List Conn
deriving DecidableEq, Repr

/-- `ConnectionManager.disconnect` (lines 45–55): `set.discard`. -/
def ConnectionManager.disconnect (m : ConnectionManager)
    (c : Conn) : ConnectionManager :=
  { m with activeConnections := m.activeConnections.filter (fun x => x != c) }

/-- `ConnectionManager.broadcast` (lines 75–114): fan out `_send_safe` to
every active connection, count the successes, drop every connection whose
send failed.  Returns (success count, connections the send was attempted
on, new state).  The `asyncio.gather(..., return_exceptions=True)` result
list is positionally the `_send_safe` value of each connection;
`_send_safe` never raises, so the `isinstance(result, Exception)` branch
is unreachable and `broadcast` itself never raises. -/
def ConnectionManager.broadcast (send : Conn → SendOutcome)
    (m : ConnectionManager) : Nat × List Conn × ConnectionManager :=
  if m.activeConnections.isEmpty then (0, [], m)
  else
    let conns := m.activeConnections
    let failed := conns.filter (fun c => !ConnectionManager.send_safe send c)
    let succCount := conns.countP (fun c => ConnectionManager.send_safe send c)
    (succCount, conns, failed.foldl ConnectionManager.disconnect m)

/-! ## Orchestrator (`src/backend/src/core/fact_checking/orchestrator.py`)

Broadcasting a message is modelled as emitting an event (timestamps and
the free-form `details` payloads of error messages are elided; the
`error` string is kept to distinguish error events).  The external
claim-extraction and verification collaborators are oracle functions;
their typed failures (`ClaimExtractionError`, `VerificationError`) and
any other exception (which the orchestrator wraps and then swallows in
its outer handler) are `Except` error values. -/

/-- `Claim` (`src/backend/src/domain/models/claim.py`): `claim_type` is
an accept-anything field defaulting to `"definition"`. -/
structure Claim where
  text : Str
  claimType : Str
deriving DecidableEq, Repr

/-- A broadcast event, mirroring the `MessageFactory` messages minus
timestamp. -/
inductive Event
  | transcriptEv (text : Str) (speaker : Str) (isFinal : Bool)
  | verdictEv (transcript : Str) (claim : Str) (status : VerdictStatus)
      (confidence : ℚ) (rationale : Str) (evidenceUrl : Option Str)
      (speaker : Str)
  | errorEv (error : Str)
deriving DecidableEq, Repr

/-- Is this an error event? -/
def Event.isError : Event → Bool
  | .errorEv _ => true
  | _ => false

/-- Is this a verdict event? -/
def Event.isVerdict : Event → Bool
  | .verdictEv _ _ _ _ _ _ _ => true
  | _ => false

/-- Failure mode of `ClaimExtractionService.extract_claims` as seen by
`_process_sentence`: a typed `ClaimExtractionError` (broadcasts a scoped
error event) or any other exception (wrapped, re-raised, then silently
swallowed by the outer `except ClaimExtractionError: pass`). -/
inductive ExtractFailure
  | extractionError
  | otherError
deriving DecidableEq, Repr

/-- Failure mode of `VerificationService.verify_claim` as seen by
`_verify_and_broadcast_claim`: a typed `VerificationError` (broadcasts a
scoped error event) or any other exception (wrapped, re-raised, then
swallowed by the outer `except VerificationError: pass`). -/
inductive VerifyFailure
  | verificationError
  | otherError
deriving DecidableEq, Repr

/-- The two external collaborators, as oracles. -/
structure Collaborators where
  extractClaims : Str → Except ExtractFailure (List Claim)
  verifyClaim : Claim → Except VerifyFailure Verdict

/-- Error text of the extraction error message (orchestrator line 150). -/
def extractErrText : Str := "Failed to extract claims".toList

/-- Error text of the verification error message (orchestrator line 229;
the Python string interpolates the exception message). -/
def verifyErrText : Str := "Failed to verify claim".toList

/-- `FactCheckingOrchestrator._verify_and_broadcast_claim`
(lines 200–291): check the claim cache; on a miss invoke the verification
collaborator directly, cache a successful verdict; broadcast the verdict
event, or on a typed `VerificationError` a scoped error event.  Returns
(emitted events, collaborator invocations, new claim cache). -/
def Orchestrator.verify_and_broadcast_claim (collab : Collaborators)
    (now : Int) (claim : Claim) (originalSentence speaker : Str)
    (cc : ClaimDeduplicator) : List Event × List Claim × ClaimDeduplicator :=
  let r := ClaimDeduplicator.get_cached_result now claim.text cc
  match r.1 with
  | some v =>
      ([.verdictEv originalSentence claim.text v.status v.confidence
          v.rationale v.evidenceUrl speaker], [], r.2)
  | none =>
      match collab.verifyClaim claim with
      | .ok v =>
          let cc2 := ClaimDeduplicator.cache_result now claim.text v r.2
          ([.verdictEv originalSentence claim.text v.status v.confidence
              v.rationale v.evidenceUrl speaker], [claim], cc2)
      | .error .verificationError =>
          ([.errorEv verifyErrText], [claim], r.2)
      | .error .otherError => ([], [claim], r.2)

/-- `FactCheckingOrchestrator._process_sentence` (lines 132–198): extract
claims (typed failure → scoped error event; other failure → wrapped and
swallowed), then verify each claim in order. -/
def Orchestrator.process_sentence (collab : Collaborators) (now : Int)
    (sentence speaker : Str)
    (cc : ClaimDeduplicator) : List Event × List Claim × ClaimDeduplicator :=
  match collab.extractClaims sentence with
  | .error .extractionError => ([.errorEv extractErrText], [], cc)
  | .error .otherError => ([], [], cc)
  | .ok claims =>
      claims.foldl
        (fun acc c =>
          let r := Orchestrator.verify_and_broadcast_claim collab now c
            sentence speaker acc.2.2
          (acc.1 ++ r.1, acc.2.1 ++ r.2.1, r.2.2))
        ([], [], cc)

/-- Orchestrator lines 109–111: append a terminal period when the
right-stripped text does not already end in `.`, `!` or `?`. -/
def Orchestrator.prepare_text (text : Str) : Str :=
  if !text.isEmpty && !headIsTerm (rstripWs text).reverse then
    rstripWs text ++ ['.']
  else text

/-- Orchestrator state threaded through `process_transcription`. -/
structure OrchState where
  buffer : Str
  transDedup : TranscriptionDeduplicator
  claimDedup : ClaimDeduplicator
deriving DecidableEq, Repr

/-- Python `speaker = speaker or "Speaker"` (line 93), including the
truthiness of the empty string. -/
def Orchestrator.defaultSpeaker (speaker : Option Str) : Str :=
  match speaker with
  | none => "Speaker".toList
  | some s => if s.isEmpty then "Speaker".toList else s

/-- `FactCheckingOrchestrator.process_transcription` (lines 73–130):
skip blank or duplicate input; broadcast the transcript event; add a
terminal period if missing; aggregate into sentences (force-flushing a
pending buffer longer than 100 characters); process each complete
sentence.  Returns (emitted events, verification-collaborator
invocations, new state). -/
def Orchestrator.process_transcription (collab : Collaborators) (now : Int)
    (text : Str) (speaker : Option Str)
    (st : OrchState) : List Event × List Claim × OrchState :=
  if (stripWs text).isEmpty then ([], [], st)
  else
    let rd := TranscriptionDeduplicator.is_duplicate now text st.transDedup
    if rd.1 then ([], [], { st with transDedup := rd.2 })
    else
      let spk := Orchestrator.defaultSpeaker speaker
      let text2 := Orchestrator.prepare_text text
      let ra := SentenceAggregator.add_text st.buffer text2
      let rb :=
        if ra.1.isEmpty then
          if !ra.2.isEmpty && ra.2.length > 100 then
            SentenceAggregator.force_flush ra.2
          else ([], ra.2)
        else ra
      let rs :=
        rb.1.foldl
          (fun acc s =>
            let r := Orchestrator.process_sentence collab now s spk acc.2.2
            (acc.1 ++ r.1, acc.2.1 ++ r.2.1, r.2.2))
          ([], [], st.claimDedup)
      (.transcriptEv text spk true :: rs.1, rs.2.1,
        { buffer := rb.2, transDedup := rd.2, claimDedup := rs.2.2 })

/-! ## Concrete scenarios used by the claims -/

/-- The end-to-end input of the spec's E2E property. -/
def skyText : Str := "The sky is blue.".toList

/-- Collaborators of the E2E scenario: extraction returns exactly one
claim (the sentence itself, type `definition`), verification returns a
`supported` verdict with confidence 0.9. -/
def collabSky : Collaborators :=
  { extractClaims := fun _ =>
      .ok [{ text := skyText, claimType := "definition".toList }],
    verifyClaim := fun _ =>
      .ok { claim := skyText, status := .supported, confidence := 9/10,
            rationale := "matches evidence".toList, evidenceUrl := none } }

/-- Fresh orchestrator state at time 0 with the TTLs the orchestrator
constructor uses (10 s transcript dedup, 60 s claim cache). -/
def freshOrch : OrchState :=
  { buffer := [],
    transDedup := { ttl := 10, cache := [], lastCleanup := 0 },
    claimDedup := { ttl := 60, cache := [], lastCleanup := 0 } }

/-- The decimal-protection probe input. -/
def piText : Str := "Pi is 3.14 today.".toList

/-- A circuit breaker for the verification dependency that is currently
Open after 3 failures at time 0 (threshold 3, recovery timeout 60). -/
def openVerifyBreaker : CircuitBreaker :=
  { name := "verification".toList, failureThreshold := 3,
    recoveryTimeout := 60, state := .opened, failureCount := 3,
    lastFailureTime := some 0, successCount := 0 }

/-- A concrete claim for the breaker scenario. -/
def blueClaim : Claim :=
  { text := skyText, claimType := "definition".toList }

/-- An empty claim-verdict cache at time 0 with the orchestrator's 60 s
TTL. -/
def emptyClaimDedup : ClaimDeduplicator :=
  { ttl := 60, cache := [], lastCleanup := 0 }

/-- A transport behaviour for the broadcast scenario: sends to
connections 0 and 1 throw, the rest succeed. -/
def failTwoSend : Conn → SendOutcome :=
  fun c => if c < 2 then .throwEx else .ok

/-! ## Theorems -/

theorem rstripWs_append_nonWs (z : Str) (c : Char) (hc : isWsChar c = false) :
    rstripWs (z ++ [c]) = z ++ [c] := by
  simp [rstripWs, List.reverse_append, List.dropWhile_cons, hc]

theorem stripWs_nil : stripWs ([] : Str) = [] := rfl

/-- Claim C7 (counterexample): on a fresh aggregator,
`add_text("Pi is 3.14 today.")` does NOT return
`["Pi is 3.14 today."]` — the split pattern `(?<=[.!?])\s+` requires
whitespace after the terminator, so a sentence ending at the end of the
buffer is not emitted in the same call. -/
theorem claim_C7_counterexample :
    (SentenceAggregator.add_text [] piText).1 ≠ [piText] := by decide

/-- Claim C7 (amended): a single `add_text("Pi is 3.14 today.")` on a
fresh aggregator returns `[]` and leaves the entire text, undivided,
pending in the buffer; in particular there is no split at the internal
decimal point.  The sentence is only emitted once later text follows the
terminal period. -/
theorem claim_C7_amended :
    SentenceAggregator.add_text [] piText = ([], piText) := by decide

/-- Claim C3 (counterexample): with the extraction collaborator returning
one claim and the verification collaborator returning a `supported`
verdict, `process_transcription("The sky is blue.")` on a fresh
orchestrator broadcasts exactly ONE event (the transcript event), not the
claimed `[transcript event, verdict event]` pair: the aggregator never
emits a sentence whose terminator sits at the end of the buffer, so no
extraction or verification happens in this call. -/
theorem claim_C3_counterexample :
    ((Orchestrator.process_transcription collabSky 0 skyText none
        freshOrch).1.length = 1 ∧
      (Orchestrator.process_transcription collabSky 0 skyText none
        freshOrch).1.all (fun e => !e.isVerdict) = true) := by decide

/-- Claim C3 (amended): the run produces exactly `[transcript event]`
with no error events, invokes no collaborator, and leaves
`"The sky is blue."` pending in the aggregator buffer (it would be
emitted and verified on a subsequent call that appends further text). -/
theorem claim_C3_amended :
    (Orchestrator.process_transcription collabSky 0 skyText none
        freshOrch).1 =
      [Event.transcriptEv skyText "Speaker".toList true] ∧
    (Orchestrator.process_transcription collabSky 0 skyText none
        freshOrch).2.1 = [] ∧
    (Orchestrator.process_transcription collabSky 0 skyText none
        freshOrch).2.2.buffer = skyText := by decide

/-- Claim C10: for non-empty input whose right-stripped text does not end
in `.`, `!` or `?`, the orchestrator feeds the aggregator
`text.rstrip() + '.'`; in every case the text fed to the aggregator ends,
after right-stripping, in a terminator. -/
theorem claim_C10 (text : Str) (h : (stripWs text).isEmpty = false) :
    (headIsTerm (rstripWs text).reverse = false →
      Orchestrator.prepare_text text = rstripWs text ++ ['.']) ∧
    headIsTerm (rstripWs (Orchestrator.prepare_text text)).reverse = true := by
  have htext : text.isEmpty = false := by
    cases text with
    | nil => simp [stripWs, lstripWs, rstripWs] at h
    | cons c rest => rfl
  constructor
  · intro hterm
    simp [Orchestrator.prepare_text, htext, hterm]
  · by_cases hterm : headIsTerm (rstripWs text).reverse = true
    · simp [Orchestrator.prepare_text, hterm]
    · have hterm' : headIsTerm (rstripWs text).reverse = false :=
        Bool.eq_false_iff.mpr hterm
      have hdot : isWsChar '.' = false := by decide
      have hpt : Orchestrator.prepare_text text = rstripWs text ++ ['.'] := by
        simp [Orchestrator.prepare_text, htext, hterm']
      rw [hpt, rstripWs_append_nonWs _ _ hdot, List.reverse_append]
      simp [headIsTerm, isTermChar]

/-- Witness for C10 at `"Hello"`. -/
theorem claim_C10_witness :
    Orchestrator.prepare_text "Hello".toList =
        rstripWs "Hello".toList ++ ['.'] ∧
      headIsTerm
        (rstripWs (Orchestrator.prepare_text "Hello".toList)).reverse =
        true :=
  ⟨(claim_C10 "Hello".toList (by decide)).1 (by decide),
   (claim_C10 "Hello".toList (by decide)).2⟩

/-- Claim C1 (counterexample): no `CircuitBreaker` is wired into the
orchestrator's verification path.  With the verification breaker Open
(`CircuitBreaker.call` would reject without invoking), the orchestrator
on a cache miss nonetheless invokes the verification collaborator,
broadcasts a verdict event, and broadcasts no error event — the claim is
not skipped. -/
theorem claim_C1_counterexample :
    openVerifyBreaker.state = .opened ∧
    (openVerifyBreaker.call 10 .success).1 = .rejected ∧
    (Orchestrator.verify_and_broadcast_claim collabSky 10 blueClaim skyText
        "Speaker".toList emptyClaimDedup).2.1 = [blueClaim] ∧
    (Orchestrator.verify_and_broadcast_claim collabSky 10 blueClaim skyText
        "Speaker".toList emptyClaimDedup).1.all
      (fun e => e.isVerdict && !e.isError) = true := by decide

/-- Claim C1 (amended): on a claim-cache miss the orchestrator invokes
the verification collaborator directly — no CircuitBreaker is consulted,
so an Open breaker does not prevent the invocation.  On the
collaborator's typed `VerificationError` the claim is skipped and a
scoped error event is broadcast; on success the verdict is cached and a
verdict event is broadcast. -/
theorem claim_C1_amended (collab : Collaborators) (now : Int)
    (claim : Claim) (sentence speaker : Str) (cc : ClaimDeduplicator)
    (hmiss : (ClaimDeduplicator.get_cached_result now claim.text cc).1 =
      none) :
    (Orchestrator.verify_and_broadcast_claim collab now claim sentence
        speaker cc).2.1 = [claim] ∧
    (collab.verifyClaim claim = .error .verificationError →
      (Orchestrator.verify_and_broadcast_claim collab now claim sentence
          speaker cc).1 = [Event.errorEv verifyErrText]) ∧
    (∀ v, collab.verifyClaim claim = .ok v →
      (Orchestrator.verify_and_broadcast_claim collab now claim sentence
          speaker cc).1 =
        [Event.verdictEv sentence claim.text v.status v.confidence
          v.rationale v.evidenceUrl speaker] ∧
      (Orchestrator.verify_and_broadcast_claim collab now claim sentence
          speaker cc).2.2 =
        ClaimDeduplicator.cache_result now claim.text v
          (ClaimDeduplicator.get_cached_result now claim.text cc).2) := by
  cases hv : collab.verifyClaim claim with
  | ok v =>
      refine ⟨?_, ?_, ?_⟩ <;>
        simp [Orchestrator.verify_and_broadcast_claim, hmiss, hv]
  | error f =>
      cases f <;> refine ⟨?_, ?_, ?_⟩ <;>
        simp [Orchestrator.verify_and_broadcast_claim, hmiss, hv]

/-- Witness for C1 (amended) at the concrete scenario: cache miss, the
collaborator is invoked and its verdict broadcast. -/
theorem claim_C1_amended_witness :
    (Orchestrator.verify_and_broadcast_claim collabSky 0 blueClaim skyText
        "Speaker".toList emptyClaimDedup).2.1 = [blueClaim] ∧
    (Orchestrator.verify_and_broadcast_claim collabSky 0 blueClaim skyText
        "Speaker".toList emptyClaimDedup).1 =
      [Event.verdictEv skyText blueClaim.text .supported (9/10)
        "matches evidence".toList none "Speaker".toList] := by
  have h := claim_C1_amended collabSky 0 blueClaim skyText
    "Speaker".toList emptyClaimDedup (by decide)
  exact ⟨h.1, (h.2.2 _ rfl).1⟩

/-- Claim C6 (counterexample): with `failure_threshold = 3`, the
alternating sequence failure, success, failure, success, failure — in
which every run of consecutive failures has length 1 — nonetheless opens
the breaker: `_record_success` does not reset `failure_count` in the
Closed state, so failures accumulate across intervening successes. -/
theorem claim_C6_counterexample :
    (let cb0 := CircuitBreaker.init "verification".toList 3 60
     let s1 := (cb0.call 0 .failure).2
     let s2 := (s1.call 1 .success).2
     let s3 := (s2.call 2 .failure).2
     let s4 := (s3.call 3 .success).2
     let s5 := (s4.call 4 .failure).2
     s2.failureCount = 1 ∧ s4.failureCount = 2 ∧ s5.state = .opened) := by
  decide

/-- Claim C6 (amended): while Closed, a successful call leaves the
breaker state (including `failure_count`) entirely unchanged — failures
are cumulative since the breaker was created, reset, or last closed, not
since the last success — and a failure increments `failure_count`,
opening the breaker exactly when the accumulated count reaches
`failure_threshold`. -/
theorem claim_C6_amended (cb : CircuitBreaker) (now : Int)
    (h : cb.state = .closed) :
    (cb.call now .success).2 = cb ∧
    (cb.call now .failure).2.failureCount = cb.failureCount + 1 ∧
    ((cb.call now .failure).2.state = .opened ↔
      cb.failureThreshold ≤ cb.failureCount + 1) := by
  have hcs : cb.check_state now = cb := by
    simp [CircuitBreaker.check_state, h]
  have hsucc : (cb.call now .success).2 = cb := by
    simp [CircuitBreaker.call, hcs, h, CircuitBreaker.record_success]
  by_cases hth : cb.failureCount + 1 ≥ cb.failureThreshold
  · have hf : (cb.call now .failure).2 =
        { cb with failureCount := cb.failureCount + 1,
                  lastFailureTime := some now, state := .opened } := by
      simp [CircuitBreaker.call, hcs, CircuitBreaker.record_failure, h, hth]
    refine ⟨hsucc, by rw [hf], ?_⟩
    rw [hf]
    simp [hth]
  · have hf : (cb.call now .failure).2 =
        { cb with failureCount := cb.failureCount + 1,
                  lastFailureTime := some now } := by
      simp [CircuitBreaker.call, hcs, CircuitBreaker.record_failure, h, hth]
    refine ⟨hsucc, by rw [hf], ?_⟩
    rw [hf]
    simp [h]
    omega

/-- Witness for C6 (amended) on a fresh breaker. -/
theorem claim_C6_amended_witness :
    ((CircuitBreaker.init "x".toList 3 60).call 5 .success).2 =
        CircuitBreaker.init "x".toList 3 60 ∧
      ((CircuitBreaker.init "x".toList 3 60).call 5 .failure).2.failureCount =
        (CircuitBreaker.init "x".toList 3 60).failureCount + 1 ∧
      (((CircuitBreaker.init "x".toList 3 60).call 5 .failure).2.state =
          .opened ↔
        (CircuitBreaker.init "x".toList 3 60).failureThreshold ≤
          (CircuitBreaker.init "x".toList 3 60).failureCount + 1) :=
  claim_C6_amended (CircuitBreaker.init "x".toList 3 60) 5 rfl

theorem CircuitBreaker.call_open_rejected (cb : CircuitBreaker) (now : Int)
    (o : CallOutcome) (hs : cb.state = .opened)
    (hr : cb.should_attempt_reset now = false) :
    cb.call now o = (.rejected, cb) := by
  have hcs : cb.check_state now = cb := by
    simp [CircuitBreaker.check_state, hr]
  simp [CircuitBreaker.call, hcs, hs]

theorem CircuitBreaker.call_open_probe_failure (cb : CircuitBreaker)
    (now : Int) (hs : cb.state = .opened)
    (hr : cb.should_attempt_reset now = true) :
    cb.call now .failure =
      (.invoked .failure,
        { cb with state := .opened, failureCount := cb.failureCount + 1,
                  lastFailureTime := some now, successCount := 0 }) := by
  have hcs : cb.check_state now =
      { cb with state := .halfOpen, successCount := 0 } := by
    simp [CircuitBreaker.check_state, hr, hs]
  simp [CircuitBreaker.call, hcs, CircuitBreaker.record_failure]

theorem CircuitBreaker.call_open_probe_success (cb : CircuitBreaker)
    (now : Int) (hs : cb.state = .opened)
    (hr : cb.should_attempt_reset now = true) :
    cb.call now .success =
      (.invoked .success,
        { cb with state := .halfOpen, successCount := 1 }) := by
  have hcs : cb.check_state now =
      { cb with state := .halfOpen, successCount := 0 } := by
    simp [CircuitBreaker.check_state, hr, hs]
  simp [CircuitBreaker.call, hcs, CircuitBreaker.record_success]

theorem CircuitBreaker.call_halfopen_second_success (cb : CircuitBreaker)
    (now : Int) (hs : cb.state = .halfOpen) (h1 : cb.successCount = 1) :
    cb.call now .success =
      (.invoked .success,
        { cb with state := .closed, failureCount := 0,
                  successCount := 0 }) := by
  have hcs : cb.check_state now = cb := by
    simp [CircuitBreaker.check_state, hs]
  simp [CircuitBreaker.call, hcs, hs, CircuitBreaker.record_success, h1]

/-- Claim C5: with `failure_threshold = 3` and a fresh (Closed) breaker,
three consecutive collaborator failures (each attempt invoked) leave the
breaker Open; a fourth call strictly within `recovery_timeout` of the
last failure is rejected without invoking the collaborator (and the
breaker stays Open); once `recovery_timeout` has elapsed the next call is
attempted in HalfOpen; a failure there immediately reopens, while two
consecutive HalfOpen successes close the breaker and reset both
`failure_count` and `success_count` to zero. -/
theorem claim_C5 (nm : Str) (rt t1 t2 t3 t4 t5 t6 : Int)
    (h4 : t4 - t3 < rt) (h5 : rt ≤ t5 - t3) :
    (let cb0 := CircuitBreaker.init nm 3 rt
     let r1 := cb0.call t1 .failure
     let r2 := r1.2.call t2 .failure
     let r3 := r2.2.call t3 .failure
     (r1.1 = .invoked .failure ∧ r2.1 = .invoked .failure ∧
       r3.1 = .invoked .failure ∧ r3.2.state = .opened) ∧
     (∀ o2 : CallOutcome, (r3.2.call t4 o2).1 = .rejected ∧
       (r3.2.call t4 o2).2.state = .opened) ∧
     ((r3.2.check_state t5).state = .halfOpen ∧
       (r3.2.call t5 .failure).1 = .invoked .failure ∧
       (r3.2.call t5 .failure).2.state = .opened) ∧
     (let s5 := (r3.2.call t5 .success).2
      (r3.2.call t5 .success).1 = .invoked .success ∧
      s5.state = .halfOpen ∧
      (s5.call t6 .success).2.state = .closed ∧
      (s5.call t6 .success).2.failureCount = 0 ∧
      (s5.call t6 .success).2.successCount = 0)) := by
  have e3 : ((((CircuitBreaker.init nm 3 rt).call t1 .failure).2.call t2
      .failure).2.call t3 .failure).2 =
      { name := nm, failureThreshold := 3, recoveryTimeout := rt,
        state := .opened, failureCount := 3, lastFailureTime := some t3,
        successCount := 0 } := rfl
  have hr4 : ({ name := nm, failureThreshold := 3, recoveryTimeout := rt,
                state := CircuitState.opened, failureCount := 3,
                lastFailureTime := some t3, successCount := 0 } :
      CircuitBreaker).should_attempt_reset t4 = false := by
    simp [CircuitBreaker.should_attempt_reset, decide_eq_false_iff_not]
    omega
  have hr5 : ({ name := nm, failureThreshold := 3, recoveryTimeout := rt,
                state := CircuitState.opened, failureCount := 3,
                lastFailureTime := some t3, successCount := 0 } :
      CircuitBreaker).should_attempt_reset t5 = true := by
    simp [CircuitBreaker.should_attempt_reset, decide_eq_true_eq]
    omega
  refine ⟨⟨rfl, rfl, rfl, by rw [e3]⟩, ?_, ⟨?_, ?_, ?_⟩, ?_, ?_, ?_, ?_, ?_⟩
  · intro o2
    rw [e3, CircuitBreaker.call_open_rejected _ t4 o2 rfl hr4]
    exact ⟨rfl, rfl⟩
  · rw [e3]
    simp [CircuitBreaker.check_state, hr5]
  · rw [e3, CircuitBreaker.call_open_probe_failure _ t5 rfl hr5]
  · rw [e3, CircuitBreaker.call_open_probe_failure _ t5 rfl hr5]
  · rw [e3, CircuitBreaker.call_open_probe_success _ t5 rfl hr5]
  · rw [e3, CircuitBreaker.call_open_probe_success _ t5 rfl hr5]
  · rw [e3, CircuitBreaker.call_open_probe_success _ t5 rfl hr5,
      CircuitBreaker.call_halfopen_second_success _ t6 rfl rfl]
  · rw [e3, CircuitBreaker.call_open_probe_success _ t5 rfl hr5,
      CircuitBreaker.call_halfopen_second_success _ t6 rfl rfl]
  · rw [e3, CircuitBreaker.call_open_probe_success _ t5 rfl hr5,
      CircuitBreaker.call_halfopen_second_success _ t6 rfl rfl]

/-- Witness for C5 with `recovery_timeout = 60` and call times
0, 1, 2, 10, 70, 71. -/
theorem claim_C5_witness :
    (let cb0 := CircuitBreaker.init "verification".toList 3 60
     let r1 := cb0.call 0 .failure
     let r2 := r1.2.call 1 .failure
     let r3 := r2.2.call 2 .failure
     (r1.1 = .invoked .failure ∧ r2.1 = .invoked .failure ∧
       r3.1 = .invoked .failure ∧ r3.2.state = .opened) ∧
     (∀ o2 : CallOutcome, (r3.2.call 10 o2).1 = .rejected ∧
       (r3.2.call 10 o2).2.state = .opened) ∧
     ((r3.2.check_state 70).state = .halfOpen ∧
       (r3.2.call 70 .failure).1 = .invoked .failure ∧
       (r3.2.call 70 .failure).2.state = .opened) ∧
     (let s5 := (r3.2.call 70 .success).2
      (r3.2.call 70 .success).1 = .invoked .success ∧
      s5.state = .halfOpen ∧
      (s5.call 71 .success).2.state = .closed ∧
      (s5.call 71 .success).2.failureCount = 0 ∧
      (s5.call 71 .success).2.successCount = 0)) :=
  claim_C5 "verification".toList 60 0 1 2 10 70 71 (by decide) (by decide)

theorem TranscriptionDeduplicator.is_duplicate_miss_empty (now : Int)
    (text : Str) (d : TranscriptionDeduplicator) (hd : d.cache = []) :
    d.is_duplicate now text =
      (false,
        { ttl := d.ttl,
          cache := [(TranscriptionDeduplicator.hash_text text, now)],
          lastCleanup := if now - d.lastCleanup < 60 then d.lastCleanup
                         else now }) := by
  unfold TranscriptionDeduplicator.is_duplicate
    TranscriptionDeduplicator.cleanup_cache
  split_ifs with hcond <;> simp [lookupKey, setKey, hd]

theorem TranscriptionDeduplicator.is_duplicate_hit (now ts : Int)
    (text : Str) (d : TranscriptionDeduplicator)
    (hd : d.cache = [(TranscriptionDeduplicator.hash_text text, ts)])
    (hlive : now - ts < d.ttl) :
    d.is_duplicate now text =
      (true,
        { ttl := d.ttl,
          cache := [(TranscriptionDeduplicator.hash_text text, now)],
          lastCleanup := if now - d.lastCleanup < 60 then d.lastCleanup
                         else now }) := by
  have hkeep : ¬ (d.ttl < now - ts) := by omega
  unfold TranscriptionDeduplicator.is_duplicate
    TranscriptionDeduplicator.cleanup_cache
  split_ifs with hcond <;>
    simp [lookupKey, setKey, hd, hkeep, hlive]

theorem TranscriptionDeduplicator.is_duplicate_expired (now ts : Int)
    (text : Str) (d : TranscriptionDeduplicator)
    (hd : d.cache = [(TranscriptionDeduplicator.hash_text text, ts)])
    (hexp : d.ttl < now - ts) :
    d.is_duplicate now text =
      (false,
        { ttl := d.ttl,
          cache := [(TranscriptionDeduplicator.hash_text text, now)],
          lastCleanup := if now - d.lastCleanup < 60 then d.lastCleanup
                         else now }) := by
  have hnotlive : ¬ (now - ts < d.ttl) := by omega
  unfold TranscriptionDeduplicator.is_duplicate
    TranscriptionDeduplicator.cleanup_cache
  split_ifs with hcond <;>
    simp [lookupKey, setKey, hd, hexp, hnotlive]


/-- Claim C8: on a fresh deduplicator, `is_duplicate(text)` returns
`False`; an immediate repeat (within the TTL) returns `True` and
refreshes the entry's timestamp to the second call's time (sliding TTL);
once more than `ttl_seconds` pass with no intervening calls, a third
identical call returns `False` again. -/
theorem claim_C8 (ttl tc t1 t2 t3 : Int) (text : Str)
    (h12 : t2 - t1 < ttl) (h23 : ttl < t3 - t2) :
    (let d0 : TranscriptionDeduplicator :=
       { ttl := ttl, cache := [], lastCleanup := tc }
     let r1 := d0.is_duplicate t1 text
     let r2 := r1.2.is_duplicate t2 text
     let r3 := r2.2.is_duplicate t3 text
     r1.1 = false ∧ r2.1 = true ∧
     lookupKey (TranscriptionDeduplicator.hash_text text) r2.2.cache =
       some t2 ∧
     r3.1 = false) := by
  have e1 : TranscriptionDeduplicator.is_duplicate t1 text
      { ttl := ttl, cache := [], lastCleanup := tc } =
      (false,
        { ttl := ttl,
          cache := [(TranscriptionDeduplicator.hash_text text, t1)],
          lastCleanup := if t1 - tc < 60 then tc else t1 }) :=
    TranscriptionDeduplicator.is_duplicate_miss_empty t1 text _ rfl
  have e2 : TranscriptionDeduplicator.is_duplicate t2 text
      { ttl := ttl,
        cache := [(TranscriptionDeduplicator.hash_text text, t1)],
        lastCleanup := if t1 - tc < 60 then tc else t1 } =
      (true,
        { ttl := ttl,
          cache := [(TranscriptionDeduplicator.hash_text text, t2)],
          lastCleanup :=
            if t2 - (if t1 - tc < 60 then tc else t1) < 60 then
              (if t1 - tc < 60 then tc else t1)
            else t2 }) :=
    TranscriptionDeduplicator.is_duplicate_hit t2 t1 text _ rfl h12
  have e3 : TranscriptionDeduplicator.is_duplicate t3 text
      { ttl := ttl,
        cache := [(TranscriptionDeduplicator.hash_text text, t2)],
        lastCleanup :=
          if t2 - (if t1 - tc < 60 then tc else t1) < 60 then
            (if t1 - tc < 60 then tc else t1)
          else t2 } =
      (false,
        { ttl := ttl,
          cache := [(TranscriptionDeduplicator.hash_text text, t3)],
          lastCleanup :=
            if t3 -
                (if t2 - (if t1 - tc < 60 then tc else t1) < 60 then
                  (if t1 - tc < 60 then tc else t1)
                else t2) < 60 then
              (if t2 - (if t1 - tc < 60 then tc else t1) < 60 then
                (if t1 - tc < 60 then tc else t1)
              else t2)
            else t3 }) :=
    TranscriptionDeduplicator.is_duplicate_expired t3 t2 text _ rfl h23
  refine ⟨?_, ?_, ?_, ?_⟩
  · rw [e1]
  · rw [e1]
    dsimp only
    rw [e2]
  · rw [e1]
    dsimp only
    rw [e2]
    dsimp only
    simp [lookupKey]
  · rw [e1]
    dsimp only
    rw [e2]
    dsimp only
    rw [e3]

/-- Witness for C8 with `ttl_seconds = 10` and call times 0, 1, 12. -/
theorem claim_C8_witness :
    (let d0 : TranscriptionDeduplicator :=
       { ttl := 10, cache := [], lastCleanup := 0 }
     let r1 := d0.is_duplicate 0 "Hello world.".toList
     let r2 := r1.2.is_duplicate 1 "Hello world.".toList
     let r3 := r2.2.is_duplicate 12 "Hello world.".toList
     r1.1 = false ∧ r2.1 = true ∧
     lookupKey (TranscriptionDeduplicator.hash_text "Hello world.".toList)
       r2.2.cache = some 1 ∧
     r3.1 = false) :=
  claim_C8 10 0 0 1 12 "Hello world.".toList (by decide) (by decide)

theorem length_countP_not {α : Type} (l : List α) (p : α → Bool) :
    l.countP p + l.countP (fun a => !p a) = l.length := by
  induction l with
  | nil => simp
  | cons a l ih =>
      by_cases h : p a = true <;>
        simp [List.countP_cons, h, Bool.not_eq_true] at * <;> omega


theorem foldl_disconnect_active (fs : List Conn) (m : ConnectionManager) :
    (fs.foldl ConnectionManager.disconnect m).activeConnections =
      m.activeConnections.filter (fun x => decide (x ∉ fs)) := by
  induction fs generalizing m with
  | nil => simp
  | cons f rest ih =>
      simp only [List.foldl_cons, ih, ConnectionManager.disconnect,
        List.filter_filter]
      apply List.filter_congr
      intro x _
      by_cases hf : x = f <;> by_cases hm : x ∈ rest <;>
        simp [hf, hm, bne]

/-- Claim C2: with 5 registered connections of which sends to exactly 2
fail (by throwing — `_send_safe` converts any throw into `false`, so
`broadcast` itself never raises), `broadcast` returns 3, attempts a send
to every registered connection, removes exactly the 2 failed connections,
and a subsequent `broadcast` attempts sends only to the 3 remaining
connections (all succeeding, state unchanged). -/
theorem claim_C2 (conns : List Conn) (send : Conn → SendOutcome)
    (h5 : conns.length = 5) (hnd : conns.Nodup)
    (h2 : conns.countP
      (fun c => !ConnectionManager.send_safe send c) = 2) :
    (let m : ConnectionManager := { activeConnections := conns }
     let r := m.broadcast send
     r.1 = 3 ∧ r.2.1 = conns ∧
     r.2.2.activeConnections =
       conns.filter (fun c => ConnectionManager.send_safe send c) ∧
     r.2.2.activeConnections.length = 3 ∧
     (let r2 := r.2.2.broadcast send
      r2.1 = 3 ∧
      r2.2.1 = conns.filter (fun c => ConnectionManager.send_safe send c) ∧
      r2.2.2 = r.2.2)) := by
  have hne : conns.isEmpty = false := by
    cases conns with
    | nil => simp at h5
    | cons a l => rfl
  have hcount : conns.countP
      (fun c => ConnectionManager.send_safe send c) = 3 := by
    have := length_countP_not conns
      (fun c => ConnectionManager.send_safe send c)
    omega
  have hactive : ((conns.filter
      (fun c => !ConnectionManager.send_safe send c)).foldl
      ConnectionManager.disconnect
      { activeConnections := conns }).activeConnections =
      conns.filter (fun c => ConnectionManager.send_safe send c) := by
    rw [foldl_disconnect_active]
    apply List.filter_congr
    intro x hx
    by_cases hgood : ConnectionManager.send_safe send x = true
    · have hnm : x ∉ conns.filter
          (fun c => !ConnectionManager.send_safe send c) := by
        simp [List.mem_filter, hgood]
      simp [hnm, hgood]
    · have hbad : ConnectionManager.send_safe send x = false :=
        Bool.eq_false_iff.mpr hgood
      have hm : x ∈ conns.filter
          (fun c => !ConnectionManager.send_safe send c) :=
        List.mem_filter.mpr (And.intro hx (by simp [hbad]))
      simp [hm, hbad]
  have hb1 : ConnectionManager.broadcast send
      { activeConnections := conns } =
      (3, conns,
        { activeConnections := conns.filter
            (fun c => ConnectionManager.send_safe send c) }) := by
    simp only [ConnectionManager.broadcast, hne]
    rw [if_neg (by simp)]
    simp only [Prod.mk.injEq]
    exact ⟨hcount, trivial, by rw [← hactive]⟩
  have hlen3 : (conns.filter
      (fun c => ConnectionManager.send_safe send c)).length = 3 := by
    rw [← List.countP_eq_length_filter]
    exact hcount
  have hne2 : (conns.filter
      (fun c => ConnectionManager.send_safe send c)).isEmpty = false := by
    cases hh : conns.filter (fun c => ConnectionManager.send_safe send c) with
    | nil => rw [hh] at hlen3; simp at hlen3
    | cons a l => rfl
  have hall : ∀ x ∈ conns.filter
      (fun c => ConnectionManager.send_safe send c),
      ConnectionManager.send_safe send x = true := by
    intro x hx
    exact (List.mem_filter.mp hx).2
  have hcount2 : (conns.filter
      (fun c => ConnectionManager.send_safe send c)).countP
      (fun c => ConnectionManager.send_safe send c) = 3 := by
    rw [List.countP_eq_length.mpr hall]
    exact hlen3
  have hfail2 : (conns.filter
      (fun c => ConnectionManager.send_safe send c)).filter
      (fun c => !ConnectionManager.send_safe send c) = [] := by
    rw [List.filter_filter]
    simp
  have hb2 : ConnectionManager.broadcast send
      { activeConnections := conns.filter
          (fun c => ConnectionManager.send_safe send c) } =
      (3, conns.filter (fun c => ConnectionManager.send_safe send c),
        { activeConnections := conns.filter
            (fun c => ConnectionManager.send_safe send c) }) := by
    simp only [ConnectionManager.broadcast, hne2]
    rw [if_neg (by simp)]
    simp only [Prod.mk.injEq]
    exact ⟨hcount2, trivial, by rw [hfail2]; rfl⟩
  refine ⟨?_, ?_, ?_, ?_, ?_, ?_, ?_⟩
  · rw [hb1]
  · rw [hb1]
  · rw [hb1]
  · rw [hb1]
    exact hlen3
  · rw [hb1]
    dsimp only
    rw [hb2]
  · rw [hb1]
    dsimp only
    rw [hb2]
  · rw [hb1]
    dsimp only
    rw [hb2]

/-- Witness for C2 with connections 0–4 where sends to 0 and 1 throw. -/
theorem claim_C2_witness :
    (let m : ConnectionManager := { activeConnections := [0, 1, 2, 3, 4] }
     let r := m.broadcast failTwoSend
     r.1 = 3 ∧ r.2.1 = [0, 1, 2, 3, 4] ∧
     r.2.2.activeConnections =
       [0, 1, 2, 3, 4].filter
         (fun c => ConnectionManager.send_safe failTwoSend c) ∧
     r.2.2.activeConnections.length = 3 ∧
     (let r2 := r.2.2.broadcast failTwoSend
      r2.1 = 3 ∧
      r2.2.1 = [0, 1, 2, 3, 4].filter
        (fun c => ConnectionManager.send_safe failTwoSend c) ∧
      r2.2.2 = r.2.2)) :=
  claim_C2 [0, 1, 2, 3, 4] failTwoSend (by decide) (by decide) (by decide)

theorem nonWs_append (a b : Str) : nonWs (a ++ b) = nonWs a ++ nonWs b :=
  List.filter_append a b

theorem nonWs_cons_ws (c : Char) (s : Str) (hc : isWsChar c = true) :
    nonWs (c :: s) = nonWs s := by
  simp [nonWs, hc]

theorem nonWs_dropWhile_ws (s : Str) :
    nonWs (s.dropWhile isWsChar) = nonWs s := by
  induction s with
  | nil => rfl
  | cons c rest ih =>
      by_cases hc : isWsChar c = true
      · rw [List.dropWhile_cons_of_pos hc, ih, nonWs_cons_ws c rest hc]
      · rw [List.dropWhile_cons_of_neg hc]

theorem nonWs_reverse (s : Str) : nonWs s.reverse = (nonWs s).reverse :=
  List.filter_reverse _ s

theorem nonWs_rstrip (s : Str) : nonWs (rstripWs s) = nonWs s := by
  unfold rstripWs
  rw [nonWs_reverse, nonWs_dropWhile_ws, nonWs_reverse,
    List.reverse_reverse]

theorem nonWs_strip (s : Str) : nonWs (stripWs s) = nonWs s := by
  unfold stripWs lstripWs
  rw [nonWs_rstrip, nonWs_dropWhile_ws]

theorem nonWs_combine (b t : Str) :
    nonWs (SentenceAggregator.combine b t) = nonWs b ++ nonWs t := by
  unfold SentenceAggregator.combine
  split
  · rw [nonWs_append, nonWs_append, nonWs_strip]
    simp [nonWs, isWsChar]
  · rw [nonWs_append, nonWs_strip]

theorem splitGo_ne_nil (s : Str) : ∀ (m : Bool) (acc : Str),
    splitGo s m acc ≠ [] := by
  induction s with
  | nil => intro m acc; simp [splitGo]
  | cons c rest ih =>
      intro m acc
      cases m
      · simp only [splitGo]
        split
        · simp
        · exact ih false (c :: acc)
      · simp only [splitGo]
        split
        · exact ih true acc
        · exact ih false (c :: acc)

theorem nonWs_concat_splitGo (s : Str) : ∀ (m : Bool) (acc : Str),
    nonWs (concatAll (splitGo s m acc)) = nonWs (acc.reverse ++ s) := by
  induction s with
  | nil =>
      intro m acc
      simp [splitGo, concatAll]
  | cons c rest ih =>
      intro m acc
      cases m
      · simp only [splitGo]
        split
        · rename_i hcond
          have hws : isWsChar c = true := by
            cases hxx : isWsChar c
            · rw [hxx] at hcond; simp at hcond
            · rfl
          rw [show concatAll (acc.reverse :: splitGo rest true []) =
              acc.reverse ++ concatAll (splitGo rest true []) from rfl,
            nonWs_append, ih true []]
          simp only [List.reverse_nil, List.nil_append]
          rw [nonWs_append, nonWs_cons_ws c rest hws]
        · rw [ih false (c :: acc)]
          simp [nonWs_append, List.append_assoc]
      · simp only [splitGo]
        split
        · rename_i hws
          rw [ih true acc, nonWs_append, nonWs_append,
            nonWs_cons_ws c rest hws]
        · rename_i hws
          rw [ih false (c :: acc)]
          simp [nonWs_append, List.append_assoc]

theorem concatAll_append (xs ys : List Str) :
    concatAll (xs ++ ys) = concatAll xs ++ concatAll ys := by
  induction xs with
  | nil => rfl
  | cons x xs ih =>
      simp only [concatAll, List.foldr_cons, List.cons_append] at *
      rw [ih, List.append_assoc]

theorem concatAll_single (x : Str) : concatAll [x] = x := by
  simp [concatAll]

theorem concatAll_cons (x : Str) (xs : List Str) :
    concatAll (x :: xs) = x ++ concatAll xs := rfl

theorem extract_sentences_clean (b : Str)
    (h : (splitParts b).length = 1 ∨
      ∀ p ∈ (splitParts b).dropLast, keepSentencePart p = true) :
    nonWs (concatAll (SentenceAggregator.extract_sentences b).1 ++
      (SentenceAggregator.extract_sentences b).2) = nonWs b := by
  have hnn : splitParts b ≠ [] := splitGo_ne_nil b false []
  have hsplit : nonWs (concatAll (splitParts b)) = nonWs b := by
    have := nonWs_concat_splitGo b false []
    simpa [splitParts] using this
  by_cases hl : (splitParts b).length == 1
  · simp [SentenceAggregator.extract_sentences, hl, concatAll]
  · have hall : ∀ p ∈ (splitParts b).dropLast, keepSentencePart p = true := by
      rcases h with h1 | h2
      · exfalso
        exact hl (by simp [h1])
      · exact h2
    have hun : SentenceAggregator.extract_sentences b =
        ((splitParts b).dropLast.filter keepSentencePart,
          ((splitParts b).getLast?).getD []) := by
      simp [SentenceAggregator.extract_sentences, hl]
    rw [hun, List.filter_eq_self.mpr hall,
      List.getLast?_eq_getLast _ hnn, Option.getD_some,
      ← concatAll_single ((splitParts b).getLast hnn),
      ← concatAll_append, List.dropLast_append_getLast hnn]
    exact hsplit

theorem add_text_clean (b t : Str)
    (h : SentenceAggregator.cleanStep b t = true) :
    nonWs (concatAll (SentenceAggregator.add_text b t).1 ++
      (SentenceAggregator.add_text b t).2) = nonWs (b ++ t) := by
  by_cases ht : t.isEmpty
  · have ht' : t = [] := by
      cases t
      · rfl
      · simp at ht
    subst ht'
    simp [SentenceAggregator.add_text, concatAll]
  · have ht' : t.isEmpty = false := Bool.eq_false_iff.mpr ht
    simp only [SentenceAggregator.cleanStep, ht', Bool.false_or,
      Bool.or_eq_true, beq_iff_eq, List.all_eq_true] at h
    simp only [SentenceAggregator.add_text, ht', Bool.false_eq_true,
      if_neg, if_false]
    rw [extract_sentences_clean (SentenceAggregator.combine b t) h,
      nonWs_combine, ← nonWs_append]

theorem runAdd_clean (ts : List Str) : ∀ b : Str,
    SentenceAggregator.cleanRun b ts = true →
    nonWs (concatAll (SentenceAggregator.runAdd b ts).1 ++
      (SentenceAggregator.runAdd b ts).2) = nonWs (b ++ concatAll ts) := by
  induction ts with
  | nil =>
      intro b h
      simp [SentenceAggregator.runAdd, concatAll]
  | cons t ts ih =>
      intro b h
      simp only [SentenceAggregator.cleanRun, Bool.and_eq_true] at h
      obtain ⟨h1, h2⟩ := h
      simp only [SentenceAggregator.runAdd]
      rw [concatAll_append, List.append_assoc, nonWs_append, ih _ h2,
        nonWs_append,
        ← List.append_assoc,
        ← nonWs_append (concatAll (SentenceAggregator.add_text b t).1)
          (SentenceAggregator.add_text b t).2,
        add_text_clean b t h1]
      simp [concatAll_cons, nonWs_append, List.append_assoc]

/-- Claim C4 (counterexample): feeding the single fragment `"3. Hello"`
to a fresh aggregator drops the non-whitespace characters `3.` entirely:
the split part `"3."` is digits-plus-period, so `_extract_sentences`
neither returns it nor keeps it buffered. -/
theorem claim_C4_counterexample :
    nonWs (concatAll
        (SentenceAggregator.runAdd [] ["3. Hello".toList]).1 ++
      (SentenceAggregator.runAdd [] ["3. Hello".toList]).2) ≠
    nonWs (concatAll ["3. Hello".toList]) := by decide

/-- Claim C4 (amended): for every fragment sequence in which no split
part (other than the trailing remainder) consists solely of digits and
trailing periods (such parts are silently dropped by the filter in
`_extract_sentences`), the concatenation of all sentences returned by
`add_text` plus the final pending buffer equals the concatenation of the
fragments up to whitespace (no non-whitespace character is dropped). -/
theorem claim_C4_amended (fs : List Str)
    (h : SentenceAggregator.cleanRun [] fs = true) :
    nonWs (concatAll (SentenceAggregator.runAdd [] fs).1 ++
      (SentenceAggregator.runAdd [] fs).2) = nonWs (concatAll fs) := by
  have := runAdd_clean fs [] h
  simpa using this

/-- Witness for C4 (amended) on the clean fragment `"Hello. World."`. -/
theorem claim_C4_witness :
    SentenceAggregator.cleanRun [] ["Hello. World.".toList] = true ∧
    nonWs (concatAll
        (SentenceAggregator.runAdd [] ["Hello. World.".toList]).1 ++
      (SentenceAggregator.runAdd [] ["Hello. World.".toList]).2) =
      nonWs (concatAll ["Hello. World.".toList]) :=
  ⟨by decide, claim_C4_amended _ (by decide)⟩

theorem wordsGo_ws_end (w : Str) (hw : w.all isWsChar = true) :
    ∀ acc : Str, wordsGo acc w = wordsGo acc [] := by
  induction w with
  | nil => intro acc; rfl
  | cons c w ih =>
      intro acc
      simp only [List.all_cons, Bool.and_eq_true] at hw
      obtain ⟨hc, hw'⟩ := hw
      have ih' := ih hw'
      simp only [wordsGo, hc, if_true]
      by_cases ha : acc.isEmpty
      · simp only [ha, if_true, ih' []]
        simp [wordsGo, ha]
      · have ha' : acc.isEmpty = false := Bool.eq_false_iff.mpr ha
        simp only [ha', Bool.false_eq_true, if_false, ih' []]
        simp [wordsGo, ha']

theorem wordsGo_append_ws (w : Str) (hw : w.all isWsChar = true) :
    ∀ (x acc : Str), wordsGo acc (x ++ w) = wordsGo acc x := by
  intro x
  induction x with
  | nil => intro acc; exact wordsGo_ws_end w hw acc
  | cons c x ih =>
      intro acc
      simp only [List.cons_append, wordsGo]
      by_cases hc : isWsChar c = true
      · simp only [hc, if_true]
        by_cases ha : acc.isEmpty
        · simp [ha, ih]
        · have ha' : acc.isEmpty = false := Bool.eq_false_iff.mpr ha
          simp [ha', ih]
      · have hc' : isWsChar c = false := Bool.eq_false_iff.mpr hc
        simp [hc', ih]

theorem wordsGo_ws_prefix (pre : Str) (hp : pre.all isWsChar = true) :
    ∀ x : Str, wordsGo [] (pre ++ x) = wordsGo [] x := by
  induction pre with
  | nil => intro x; rfl
  | cons c pre ih =>
      intro x
      simp only [List.all_cons, Bool.and_eq_true] at hp
      obtain ⟨hc, hp'⟩ := hp
      simp only [List.cons_append, wordsGo, hc, if_true, List.isEmpty_nil]
      exact ih hp' x

theorem pySplitWs_ws_prefix (pre x : Str) (hp : pre.all isWsChar = true) :
    pySplitWs (pre ++ x) = pySplitWs x :=
  wordsGo_ws_prefix pre hp x

theorem pySplitWs_ws_suffix (x post : Str)
    (hp : post.all isWsChar = true) :
    pySplitWs (x ++ post) = pySplitWs x :=
  wordsGo_append_ws post hp x []

theorem all_ws_takeWhile (y : Str) :
    (y.takeWhile isWsChar).all isWsChar = true := by
  rw [List.all_eq_true]
  intro x hx
  exact List.mem_takeWhile_imp hx

theorem strip_decomp (y : Str) :
    ∃ pre post : Str, pre.all isWsChar = true ∧
      post.all isWsChar = true ∧ y = pre ++ stripWs y ++ post := by
  refine ⟨y.takeWhile isWsChar,
    ((y.dropWhile isWsChar).reverse.takeWhile isWsChar).reverse, ?_, ?_, ?_⟩
  · exact all_ws_takeWhile y
  · rw [List.all_eq_true]
    intro x hx
    rw [List.mem_reverse] at hx
    exact List.mem_takeWhile_imp hx
  · have h1 : y = y.takeWhile isWsChar ++ y.dropWhile isWsChar :=
      (List.takeWhile_append_dropWhile isWsChar y).symm
    have h2 : y.dropWhile isWsChar =
        stripWs y ++
          ((y.dropWhile isWsChar).reverse.takeWhile isWsChar).reverse := by
      have h3 : (y.dropWhile isWsChar).reverse =
          (y.dropWhile isWsChar).reverse.takeWhile isWsChar ++
            (y.dropWhile isWsChar).reverse.dropWhile isWsChar :=
        (List.takeWhile_append_dropWhile isWsChar _).symm
      have h4 := congrArg List.reverse h3
      rw [List.reverse_reverse, List.reverse_append] at h4
      exact h4
    rw [List.append_assoc, ← h2, ← h1]

theorem filter_all_ws_keep (w : Str) (hw : w.all isWsChar = true) :
    w.filter claimKeepChar = w := by
  rw [List.filter_eq_self]
  intro c hc
  have := (List.all_eq_true.mp hw) c hc
  simp [claimKeepChar, this]

theorem pySplitWs_filter_strip (y : Str) :
    pySplitWs ((stripWs y).filter claimKeepChar) =
      pySplitWs (y.filter claimKeepChar) := by
  obtain ⟨pre, post, hpre, hpost, hy⟩ := strip_decomp y
  conv_rhs => rw [hy]
  rw [List.filter_append, List.filter_append, filter_all_ws_keep pre hpre,
    filter_all_ws_keep post hpost, List.append_assoc,
    pySplitWs_ws_prefix pre _ hpre, pySplitWs_ws_suffix _ post hpost]

theorem hash_claim_eq_joinWords (s : Str) :
    ClaimDeduplicator.hash_claim s = joinWords (claimWords s) := by
  unfold ClaimDeduplicator.hash_claim claimWords
  rw [pySplitWs_filter_strip]

theorem dropWhile_ws_append (pre x : Str)
    (hp : pre.all isWsChar = true) :
    (pre ++ x).dropWhile isWsChar = x.dropWhile isWsChar := by
  induction pre with
  | nil => rfl
  | cons c pre ih =>
      simp only [List.all_cons, Bool.and_eq_true] at hp
      obtain ⟨hc, hp'⟩ := hp
      simp only [List.cons_append, List.dropWhile_cons, hc, if_true]
      exact ih hp'

theorem strip_ws_prefix (pre x : Str) (hp : pre.all isWsChar = true) :
    stripWs (pre ++ x) = stripWs x := by
  unfold stripWs lstripWs
  rw [dropWhile_ws_append pre x hp]

theorem rstrip_ws_suffix (x post : Str) (hp : post.all isWsChar = true) :
    rstripWs (x ++ post) = rstripWs x := by
  unfold rstripWs
  rw [List.reverse_append, dropWhile_ws_append]
  rw [List.all_eq_true]
  intro c hc
  rw [List.mem_reverse] at hc
  exact (List.all_eq_true.mp hp) c hc

theorem all_ws_dropWhile_nil (w : Str) (hw : w.all isWsChar = true) :
    w.dropWhile isWsChar = [] :=
  List.dropWhile_eq_nil_iff.mpr (List.all_eq_true.mp hw)

theorem strip_ws_suffix (x post : Str) (hp : post.all isWsChar = true) :
    stripWs (x ++ post) = stripWs x := by
  unfold stripWs lstripWs
  rw [List.dropWhile_append]
  by_cases he : (x.dropWhile isWsChar).isEmpty
  · rw [if_pos he, all_ws_dropWhile_nil post hp]
    have he' : x.dropWhile isWsChar = [] := by
      cases hxx : x.dropWhile isWsChar
      · rfl
      · rw [hxx] at he; simp at he
    rw [he']
  · have he' : (x.dropWhile isWsChar).isEmpty = false :=
      Bool.eq_false_iff.mpr he
    rw [if_neg (by simp [he'])]
    exact rstrip_ws_suffix _ post hp

theorem toLower_ws (c : Char) (hc : isWsChar c = true) :
    Char.toLower c = c := by
  simp only [isWsChar, Bool.or_eq_true, decide_eq_true_eq] at hc
  rcases hc with ((((h | h) | h) | h) | h) | h <;> subst h <;> decide

theorem map_toLower_all_ws (w : Str) (hw : w.all isWsChar = true) :
    (w.map Char.toLower).all isWsChar = true := by
  rw [List.all_eq_true]
  intro c hc
  rw [List.mem_map] at hc
  obtain ⟨d, hd, hdc⟩ := hc
  have hdw := (List.all_eq_true.mp hw) d hd
  rw [← hdc, toLower_ws d hdw]
  exact hdw

/-- Claim C9 (counterexample): the transcript-dedup normalizer does NOT
collapse internal whitespace runs: `"a  b"` and `"a b"` (differing only in
an internal whitespace run) get different keys, and the second is not
treated as a duplicate of the first. -/
theorem claim_C9_counterexample :
    TranscriptionDeduplicator.hash_text "a  b".toList ≠
      TranscriptionDeduplicator.hash_text "a b".toList ∧
    (let d0 : TranscriptionDeduplicator :=
       { ttl := 10, cache := [], lastCleanup := 0 }
     ((d0.is_duplicate 0 "a  b".toList).2.is_duplicate 0
       "a b".toList).1 = false) := by decide

/-- Claim C9 (amended): the claim-verdict cache normalizer maps any two
texts with the same word sequence after lowercasing and
punctuation-stripping — i.e. texts differing only in letter case,
leading/trailing whitespace, non-alphanumeric non-whitespace characters,
or internal whitespace runs — to the same key.  The transcript-dedup
normalizer guarantees this only for letter case and leading/trailing
whitespace; it deletes `. , ! ?` but preserves the surrounding
whitespace, so internal whitespace runs distinguish keys. -/
theorem claim_C9_amended :
    (∀ s t : Str, claimWords s = claimWords t →
      ClaimDeduplicator.hash_claim s = ClaimDeduplicator.hash_claim t) ∧
    (∀ s t : Str, s.map Char.toLower = t.map Char.toLower →
      TranscriptionDeduplicator.hash_text s =
        TranscriptionDeduplicator.hash_text t) ∧
    (∀ s pre post : Str, pre.all isWsChar = true →
      post.all isWsChar = true →
      TranscriptionDeduplicator.hash_text (pre ++ s ++ post) =
        TranscriptionDeduplicator.hash_text s) := by
  refine ⟨?_, ?_, ?_⟩
  · intro s t h
    rw [hash_claim_eq_joinWords, hash_claim_eq_joinWords, h]
  · intro s t h
    unfold TranscriptionDeduplicator.hash_text
    rw [h]
  · intro s pre post hpre hpost
    unfold TranscriptionDeduplicator.hash_text
    rw [List.map_append, List.map_append,
      strip_ws_suffix _ _ (map_toLower_all_ws post hpost),
      strip_ws_prefix _ _ (map_toLower_all_ws pre hpre)]

/-- Witness for C9 (amended) at concrete text pairs. -/
theorem claim_C9_witness :
    ClaimDeduplicator.hash_claim "Hello,  WORLD!".toList =
      ClaimDeduplicator.hash_claim "hello world".toList ∧
    TranscriptionDeduplicator.hash_text "HELLO world.".toList =
      TranscriptionDeduplicator.hash_text "hello world.".toList ∧
    TranscriptionDeduplicator.hash_text "  hello world. ".toList =
      TranscriptionDeduplicator.hash_text "hello world.".toList :=
  ⟨claim_C9_amended.1 _ _ (by decide),
   claim_C9_amended.2.1 _ _ (by decide),
   claim_C9_amended.2.2 "hello world.".toList "  ".toList " ".toList
     (by decide) (by decide)⟩

end UA
